import Mathlib

set_option maxHeartbeats 1000000

/-!
Shallow embedding of yadex's directory-listing server (src/server.rs),
together with the behaviour of the library functions it calls:
the html_escape crate's two encoders, axum's response constructors,
and chrono's timestamp formatting.  I/O (the directory stream and its
per-entry metadata reads) is modelled by explicit lists of possibly
failed items, so the request handler becomes a pure function.
-/

/-- Escape table of html_escape::encode_safe: the six characters
ampersand, less-than, greater-than, double quote, single quote and slash
become HTML entities; every other character passes through unchanged. -/
def escSafeChar (c : Char) : List Char :=
  if c = '&' then "&amp;".data
  else if c = '<' then "&lt;".data
  else if c = '>' then "&gt;".data
  else if c = '\"' then "&quot;".data
  else if c = Char.ofNat 39 then "&#x27;".data
  else if c = '/' then "&#x2F;".data
  else [c]

/-- Escape table of html_escape::encode_double_quoted_attribute: only
ampersand and double quote become entities; everything else (including
less-than, greater-than and slash) passes through unchanged. -/
def escAttrChar (c : Char) : List Char :=
  if c = '&' then "&amp;".data
  else if c = '\"' then "&quot;".data
  else [c]

/-- Character-by-character escaping of a character list. -/
def encodeList (esc : Char → List Char) : List Char → List Char
  | [] => []
  | c :: rest => esc c ++ encodeList esc rest

/-- html_escape::encode_safe, as called by the Display impl of DirEntryInfo. -/
def encode_safe (s : String) : String := ⟨encodeList escSafeChar s.data⟩

/-- html_escape::encode_double_quoted_attribute, as called by the Display
impl of DirEntryInfo for the href attribute value. -/
def encode_double_quoted_attribute (s : String) : String :=
  ⟨encodeList escAttrChar s.data⟩

/-- append_slash_for_dir from src/server.rs: append a slash exactly when
the entry is a directory (both Cow branches of the source push one '/'). -/
def append_slash_for_dir (name : String) (d : Bool) : String :=
  if d then name ++ "/" else name

/-- Proleptic-Gregorian civil date from a day count relative to 1970-01-01,
as chrono computes it when formatting a UTC timestamp. -/
def civilFromDays (z0 : Int) : Int × Nat × Nat :=
  let z := z0 + 719468
  let era := Int.ediv z 146097
  let doe := (z - era * 146097).toNat
  let yoe := (doe - doe / 1460 + doe / 36524 - doe / 146096) / 365
  let doy := doe - (365 * yoe + yoe / 4 - yoe / 100)
  let mp := (5 * doy + 2) / 153
  let dd := doy - (153 * mp + 2) / 5 + 1
  let mm := if mp < 10 then mp + 3 else mp - 9
  let yy := (yoe : Int) + era * 400
  (if mm ≤ 2 then yy + 1 else yy, mm, dd)

/-- Zero-pad a number to two digits, as chrono's numeric date fields do. -/
def pad2 (n : Nat) : String := if n < 10 then "0" ++ toString n else toString n

/-- Zero-pad a number to four digits, for the year field. -/
def pad4 (n : Nat) : String :=
  if n < 10 then "000" ++ toString n
  else if n < 100 then "00" ++ toString n
  else if n < 1000 then "0" ++ toString n
  else toString n

/-- chrono's rendering of a proleptic-Gregorian year: zero-padded to four
digits, with a leading minus for negative years and a plus beyond 9999. -/
def showYear (y : Int) : String :=
  if y < 0 then "-" ++ pad4 (-y).toNat
  else if 9999 < y then "+" ++ toString y.toNat
  else pad4 y.toNat

/-- Display of chrono::DateTime<Utc> (the t.to_string() call in the Display
impl of DirEntryInfo): "YYYY-MM-DD HH:MM:SS UTC" for the given Unix time. -/
def chronoShow (t : Int) : String :=
  let days := Int.ediv t 86400
  let secs := (t - days * 86400).toNat
  let ymd := civilFromDays days
  showYear ymd.1 ++ "-" ++ pad2 ymd.2.1 ++ "-" ++ pad2 ymd.2.2 ++ " " ++
    pad2 (secs / 3600) ++ ":" ++ pad2 (secs % 3600 / 60) ++ ":" ++
    pad2 (secs % 60) ++ " UTC"

/-- chrono::DateTime::from_timestamp(secs, 0): succeeds exactly when the
second count lies in chrono's representable range (years -262144..=262143);
the bounds are the timestamps of -262144-01-01 00:00:00 and
262143-12-31 23:59:59. -/
def chronoFromTimestamp (secs : Int) : Option Int :=
  if -8334632851200 ≤ secs ∧ secs ≤ 8210298412799 then some secs else none

/-- The slice of std::fs::Metadata the handler reads: is_dir(), size()
and mtime() (seconds). -/
structure Metadata where
  is_dir : Bool
  size : Nat
  mtime : Int
  deriving DecidableEq

/-- A directory entry as the handler sees it: its file name (already via
to_string_lossy, so a Unicode string) and the result of its metadata()
call, which may fail (none). -/
structure DirEntry where
  file_name : String
  metadata : Option Metadata
  deriving DecidableEq

/-- direntry_info from src/server.rs: val.ok()? then val.metadata().ok()?.
A stream item is none when read_dir itself yielded Err for that slot. -/
def direntry_info (val : Option DirEntry) : Option (DirEntry × Metadata) :=
  match val with
  | none => none
  | some d =>
    match d.metadata with
    | none => none
    | some meta => some (d, meta)

/-- The per-entry view rendered by the Display impl (struct DirEntryInfo
in src/server.rs). -/
structure DirEntryInfo where
  name : String
  is_dir : Bool
  size : Nat
  mtime : Option Int
  deriving DecidableEq

/-- The Display impl for DirEntryInfo: the raw-string row template with its
exact whitespace, the href attribute filled with the double-quoted-attribute
escaping of the name, the link text with the encode_safe escaping, both with
a slash appended for directories, then the datetime (or "Unknown") and size. -/
def dirEntryRow (e : DirEntryInfo) : String :=
  "<tr>\n                   <td><a href=\"" ++
    append_slash_for_dir (encode_double_quoted_attribute e.name) e.is_dir ++
    "\">" ++
    append_slash_for_dir (encode_safe e.name) e.is_dir ++
    "</a></td>\n                   <td>" ++
    (match e.mtime with
     | some t => chronoShow t
     | none => "Unknown") ++
    "</td>\n                   <td>" ++
    toString e.size ++
    "</td>\n               </tr>"

/-- The fixed row pushed when direntry_info returns None for an item. -/
def entryErrorRow : String :=
  "<tr class=\"entry-error\"><td>error occurred while getting this entry</td></tr>"

/-- The fixed row pushed when the loop index reaches limit - 1. -/
def truncatedWarningRow : String :=
  "<tr class=\"truncated-warning\"><td>Too many entries. This list might be truncated.</td></tr>"

/-- AppState from src/server.rs. -/
structure AppState where
  limit : Nat
  header : String
  footer : String

/-- An HTTP response, reduced to the fields the server ever sets:
status code, optional Location header, body text. -/
structure Response where
  status : Nat
  location : Option String
  body : String
  deriving DecidableEq

/-- axum: IntoResponse for Html<String> — status 200 with the HTML body. -/
def Html.into_response (s : String) : Response :=
  { status := 200, location := none, body := s }

/-- axum: Redirect::permanent — status 308 Permanent Redirect with the
given value in the Location header. -/
def Redirect.permanent (uri : String) : Response :=
  { status := 308, location := some uri, body := "" }

/-- axum: IntoResponse for a plain string slice — status 200 OK with the
text as the body (axum attaches no other status to a bare str). -/
def strIntoResponse (s : String) : Response :=
  { status := 200, location := none, body := s }

/-- YadexError from src/server.rs; the sources carry the underlying
io error / report text, which is never shown to the client. -/
inductive YadexError where
  | NotFound (source : String)
  | Whatever (source : Option String) (message : String)
  deriving DecidableEq

/-- IntoResponse for YadexError from src/server.rs: each variant turns into
a bare string response (the Whatever arm also logs server-side, which has no
client-visible effect and is omitted here). -/
def YadexError.into_response : YadexError → Response
  | .NotFound _ => strIntoResponse "404 Not Found"
  | .Whatever _ _ => strIntoResponse "Internal Server Error"

/-- usize::MAX on the 64-bit targets the server runs on. -/
def usizeMax : Nat := 2 ^ 64 - 1

/-- The limit computation in App::serve: a configured limit of 0 becomes
usize::MAX (unbounded), any other value passes through. -/
def App.serveLimit (configLimit : Nat) : Nat :=
  if configLimit = 0 then usizeMax else configLimit

/-- The body of the while loop in directory_listing: append the entry row
(or the error row when direntry_info failed), then append the truncation
warning when the running index has reached limit - 1. -/
def listingStep (limit : Nat) (html : String) (p : Nat × Option DirEntry) : String :=
  let html1 :=
    match direntry_info p.2 with
    | some dm =>
      html ++ dirEntryRow
        { name := dm.1.file_name
          is_dir := dm.2.is_dir
          size := dm.2.size
          mtime := chronoFromTimestamp dm.2.mtime }
    | none => html ++ entryErrorRow
  if p.1 = limit - 1 then html1 ++ truncatedWarningRow else html1

/-- The successful-path body construction of directory_listing: start from
the header, fold the loop body over the enumerated stream truncated to
limit items, then append the footer. -/
def directory_listing_html (limit : Nat) (header footer : String)
    (items : List (Option DirEntry)) : String :=
  ((items.enum.take limit).foldl (listingStep limit) header) ++ footer

/-- path.ends_with('/') in the handler: the last character is a slash. -/
def endsWithSlash (s : String) : Bool := s.data.getLast? == some '/'

/-- The directory_listing handler.  read_dir models tokio::fs::read_dir at
the request path: an error result is the io error wrapped into NotFound,
a success is the (finite) stream of read_dir items. -/
def directory_listing (state : AppState) (path : String)
    (read_dir : String → Except String (List (Option DirEntry))) :
    Except YadexError Response :=
  if !endsWithSlash path then
    .ok (Redirect.permanent (path ++ "/"))
  else
    match read_dir path with
    | .error e => .error (.NotFound e)
    | .ok items =>
      .ok (Html.into_response
        (directory_listing_html state.limit state.header state.footer items))

/-- The row one consumed stream item contributes to the listing body
(before the truncation check): the rendered DirEntryInfo on success, the
fixed error row on failure. -/
def baseRow (it : Option DirEntry) : String :=
  match direntry_info it with
  | some dm =>
    dirEntryRow
      { name := dm.1.file_name
        is_dir := dm.2.is_dir
        size := dm.2.size
        mtime := chronoFromTimestamp dm.2.mtime }
  | none => entryErrorRow

/-- What an enumerated item at index p.1 contributes in total: its row,
plus the truncation warning when the index is limit - 1. -/
def renderIndexed (limit : Nat) (p : Nat × Option DirEntry) : String :=
  baseRow p.2 ++ (if p.1 = limit - 1 then truncatedWarningRow else "")

/-- The list of per-item fragments of the rendered listing, one per
consumed stream item, in enumeration order. -/
def renderedRows (limit : Nat) (items : List (Option DirEntry)) : List String :=
  (items.enum.take limit).map (renderIndexed limit)

/-- Whether the loop emits the truncation warning: some consumed index
equals limit - 1. -/
def maybeTruncated (limit : Nat) (items : List (Option DirEntry)) : Bool :=
  (items.enum.take limit).any (fun p => p.1 == limit - 1)

/-- Concatenation of a list of fragments. -/
def joinRows : List String → String
  | [] => ""
  | s :: rest => s ++ joinRows rest

/-- Sample stream used by witnesses: one good entry, one entry whose
metadata read fails, one read_dir error. -/
def wItems : List (Option DirEntry) :=
  [some ⟨"a", some ⟨false, 3, 0⟩⟩, some ⟨"f", none⟩, none]

/-- A single good entry. -/
def oneItem : List (Option DirEntry) := [some ⟨"a", some ⟨false, 0, 0⟩⟩]

/-- An entry whose metadata read fails. -/
def failItem : Option DirEntry := some ⟨"f", none⟩

lemma str_assoc (a b c : String) : a ++ b ++ c = a ++ (b ++ c) := by
  apply String.ext
  simp [String.data_append, List.append_assoc]

lemma str_append_nil (a : String) : a ++ "" = a := by
  apply String.ext
  simp [String.data_append]

lemma str_nil_append (a : String) : "" ++ a = a := by
  apply String.ext
  simp [String.data_append]

lemma encode_safe_data (s : String) :
    (encode_safe s).data = encodeList escSafeChar s.data := rfl

lemma encode_attr_data (s : String) :
    (encode_double_quoted_attribute s).data = encodeList escAttrChar s.data := rfl

lemma escAttrChar_no_quote (c : Char) : '\"' ∉ escAttrChar c := by
  unfold escAttrChar
  split_ifs with h1 h2
  · decide
  · decide
  · simp only [List.mem_singleton]
    exact fun h => h2 h.symm

lemma encodeList_no_quote_attr (l : List Char) :
    '\"' ∉ encodeList escAttrChar l := by
  induction l with
  | nil => simp [encodeList]
  | cons c rest ih =>
    simp only [encodeList, List.mem_append]
    rintro (h | h)
    · exact escAttrChar_no_quote c h
    · exact ih h

lemma escSafeChar_no_markup (c x : Char) (hx : x = '<' ∨ x = '>' ∨ x = '\"') :
    x ∉ escSafeChar c := by
  unfold escSafeChar
  rcases hx with rfl | rfl | rfl <;>
    split_ifs with h1 h2 h3 h4 h5 h6 <;>
      first
        | decide
        | (simp only [List.mem_singleton]
           rintro rfl
           simp_all)

lemma encodeList_no_markup_safe (l : List Char) (x : Char)
    (hx : x = '<' ∨ x = '>' ∨ x = '\"') :
    x ∉ encodeList escSafeChar l := by
  induction l with
  | nil => simp [encodeList]
  | cons c rest ih =>
    simp only [encodeList, List.mem_append]
    rintro (h | h)
    · exact escSafeChar_no_markup c x hx h
    · exact ih h

lemma escSafeChar_getLast (c : Char) : (escSafeChar c).getLast? ≠ some '/' := by
  unfold escSafeChar
  split_ifs with h1 h2 h3 h4 h5 h6
  · decide
  · decide
  · decide
  · decide
  · decide
  · decide
  · intro h
    exact h6 (Option.some.inj h)

lemma escAttrChar_getLast (c : Char) (hc : c ≠ '/') :
    (escAttrChar c).getLast? ≠ some '/' := by
  unfold escAttrChar
  split_ifs with h1 h2
  · decide
  · decide
  · intro h
    exact hc (Option.some.inj h)

lemma encodeList_getLast_safe (l : List Char) :
    (encodeList escSafeChar l).getLast? ≠ some '/' := by
  induction l with
  | nil => simp [encodeList]
  | cons c rest ih =>
    show ((escSafeChar c) ++ encodeList escSafeChar rest).getLast? ≠ some '/'
    rw [List.getLast?_append]
    cases h : (encodeList escSafeChar rest).getLast? with
    | none => simpa [Option.or] using escSafeChar_getLast c
    | some y =>
      rw [h] at ih
      simpa [Option.or] using ih

lemma encodeList_getLast_attr (l : List Char) (hl : ∀ c ∈ l, c ≠ '/') :
    (encodeList escAttrChar l).getLast? ≠ some '/' := by
  induction l with
  | nil => simp [encodeList]
  | cons c rest ih =>
    show ((escAttrChar c) ++ encodeList escAttrChar rest).getLast? ≠ some '/'
    rw [List.getLast?_append]
    cases h : (encodeList escAttrChar rest).getLast? with
    | none =>
      simpa [Option.or] using escAttrChar_getLast c (hl c (List.mem_cons_self c rest))
    | some y =>
      have := ih (fun x hx => hl x (List.mem_cons_of_mem c hx))
      rw [h] at this
      simpa [Option.or] using this

lemma getLast_append_slash (s : String) : (s ++ "/").data.getLast? = some '/' := by
  rw [String.data_append]
  rw [List.getLast?_append]
  rfl

lemma listingStep_eq (limit : Nat) (html : String) (p : Nat × Option DirEntry) :
    listingStep limit html p = html ++ renderIndexed limit p := by
  unfold listingStep renderIndexed baseRow
  rcases hdi : direntry_info p.2 with _ | dm <;>
    by_cases h : p.1 = limit - 1 <;>
      simp [hdi, h, str_assoc, str_append_nil]

lemma foldl_listingStep (limit : Nat) (l : List (Nat × Option DirEntry)) (acc : String) :
    l.foldl (listingStep limit) acc = acc ++ joinRows (l.map (renderIndexed limit)) := by
  induction l generalizing acc with
  | nil => simp [joinRows, str_append_nil]
  | cons p rest ih =>
    simp only [List.foldl_cons, List.map_cons, joinRows]
    rw [ih, listingStep_eq, str_assoc]

lemma directory_listing_html_eq (limit : Nat) (hdr ftr : String)
    (items : List (Option DirEntry)) :
    directory_listing_html limit hdr ftr items =
      hdr ++ joinRows (renderedRows limit items) ++ ftr := by
  unfold directory_listing_html renderedRows
  rw [foldl_listingStep]

lemma joinRows_append (l1 l2 : List String) :
    joinRows (l1 ++ l2) = joinRows l1 ++ joinRows l2 := by
  induction l1 with
  | nil => simp [joinRows, str_nil_append]
  | cons s rest ih =>
    simp only [List.cons_append, joinRows]
    rw [show rest.append l2 = rest ++ l2 from rfl, ih, str_assoc]

lemma enum_eq (l : List (Option DirEntry)) : l.enum = List.enumFrom 0 l := rfl

lemma enumFrom_take {α : Type} (l : List α) : ∀ (n m : Nat),
    (List.enumFrom n l).take m = List.enumFrom n (l.take m) := by
  induction l with
  | nil => intro n m; simp
  | cons x rest ih =>
    intro n m
    cases m with
    | zero => simp
    | succ m' => simp only [List.enumFrom, List.take, List.take_succ_cons]; rw [ih]

lemma renderedRows_length (L : Nat) (items : List (Option DirEntry)) :
    (renderedRows L items).length = min L items.length := by
  unfold renderedRows
  rw [List.length_map, List.length_take, List.enum_length]

lemma any_idx_enumFrom {α : Type} (k : Nat) (l : List α) : ∀ (n : Nat),
    ((List.enumFrom n l).any (fun p => p.1 == k) = true) ↔
      (n ≤ k ∧ k < n + l.length) := by
  induction l with
  | nil => intro n; simp
  | cons x rest ih =>
    intro n
    simp only [List.enumFrom, List.any_cons, Bool.or_eq_true, beq_iff_eq, ih (n + 1),
      List.length_cons]
    omega

lemma maybeTruncated_iff (L : Nat) (items : List (Option DirEntry)) (h : 0 < L) :
    (maybeTruncated L items = true) ↔ L ≤ items.length := by
  unfold maybeTruncated
  rw [enum_eq, enumFrom_take, any_idx_enumFrom, List.length_take]
  omega

lemma maybeTruncated_false (L : Nat) (items : List (Option DirEntry)) (h0 : 0 < L)
    (h : items.length < L) : maybeTruncated L items = false := by
  rw [← Bool.not_eq_true, maybeTruncated_iff L items h0]
  omega

lemma renderIndexed_base {L : Nat} (p : Nat × Option DirEntry) (h : p.1 ≠ L - 1) :
    renderIndexed L p = baseRow p.2 := by
  unfold renderIndexed
  rw [if_neg h, str_append_nil]

lemma map_renderIndexed_base {L : Nat} (l : List (Option DirEntry)) : ∀ (n : Nat),
    n + l.length < L →
    (List.enumFrom n l).map (renderIndexed L) =
      (List.enumFrom n l).map (fun p => baseRow p.2) := by
  induction l with
  | nil => intro n _; simp
  | cons x rest ih =>
    intro n hn
    simp only [List.enumFrom, List.map_cons, List.length_cons] at hn ⊢
    rw [List.cons.injEq]
    constructor
    · exact renderIndexed_base (n, x) (by omega)
    · exact ih (n + 1) (by omega)

lemma join_renderIndexed_last {L : Nat} (l : List (Option DirEntry)) : ∀ (n : Nat),
    n + l.length = L → l ≠ [] →
    joinRows ((List.enumFrom n l).map (renderIndexed L)) =
      joinRows ((List.enumFrom n l).map (fun p => baseRow p.2)) ++ truncatedWarningRow := by
  induction l with
  | nil => intro n _ hne; exact absurd rfl hne
  | cons x rest ih =>
    intro n hn _
    cases rest with
    | nil =>
      simp only [List.enumFrom, List.map_cons, List.map_nil, List.length_cons,
        List.length_nil, joinRows] at hn ⊢
      unfold renderIndexed
      rw [if_pos (by omega : n = L - 1)]
      simp [str_append_nil, str_nil_append, str_assoc]
    | cons y ys =>
      have hone : renderIndexed L (n, x) = baseRow x := by
        apply renderIndexed_base
        simp only [List.length_cons] at hn
        omega
      have hlen : (n + 1) + (y :: ys).length = L := by
        simp only [List.length_cons] at hn ⊢
        omega
      calc joinRows ((List.enumFrom n (x :: y :: ys)).map (renderIndexed L))
          = renderIndexed L (n, x) ++
              joinRows ((List.enumFrom (n + 1) (y :: ys)).map (renderIndexed L)) := rfl
        _ = baseRow x ++
              (joinRows ((List.enumFrom (n + 1) (y :: ys)).map (fun p => baseRow p.2)) ++
                truncatedWarningRow) := by
            rw [hone, ih (n + 1) hlen (by simp)]
        _ = joinRows ((List.enumFrom n (x :: y :: ys)).map (fun p => baseRow p.2)) ++
              truncatedWarningRow := by
            rw [← str_assoc]; rfl

lemma renderedRows_small (L : Nat) (items : List (Option DirEntry))
    (h : items.length < L) :
    renderedRows L items = items.enum.map (fun p => baseRow p.2) := by
  unfold renderedRows
  rw [List.take_of_length_le (by rw [List.enum_length]; omega)]
  rw [enum_eq]
  exact map_renderIndexed_base items 0 (by omega)

lemma renderedRows_full (L : Nat) (items : List (Option DirEntry)) (h0 : 0 < L)
    (h : L ≤ items.length) :
    joinRows (renderedRows L items) =
      joinRows ((items.take L).enum.map (fun p => baseRow p.2)) ++ truncatedWarningRow := by
  have hne : items.take L ≠ [] := by
    intro hnil
    have hlen := congrArg List.length hnil
    rw [List.length_take] at hlen
    simp only [List.length_nil] at hlen
    omega
  unfold renderedRows
  rw [enum_eq, enumFrom_take]
  exact join_renderIndexed_last (items.take L) 0 (by rw [List.length_take]; omega) hne

lemma not_mem_append_slash (s : String) (x : Char) (hx : x ∉ s.data) (hxs : x ≠ '/') :
    x ∉ (s ++ "/").data := by
  rw [String.data_append]
  simp only [List.mem_append]
  rintro (h | h)
  · exact hx h
  · simp only [List.mem_singleton] at h
    exact hxs h

lemma renderIndexed_err (L n : Nat) (bad : Option DirEntry)
    (hbad : direntry_info bad = none) :
    renderIndexed L (n, bad) =
      entryErrorRow ++ (if n = L - 1 then truncatedWarningRow else "") := by
  unfold renderIndexed baseRow
  simp [hbad]

lemma directory_listing_ok (st : AppState) (path : String)
    (fs : String → Except String (List (Option DirEntry)))
    (items : List (Option DirEntry))
    (h1 : endsWithSlash path = true) (h2 : fs path = .ok items) :
    directory_listing st path fs =
      .ok { status := 200, location := none,
            body := st.header ++ joinRows (renderedRows st.limit items) ++ st.footer } := by
  unfold directory_listing
  rw [h1, h2]
  simp only [Bool.not_true, Bool.false_eq_true, if_false]
  rw [show Html.into_response (directory_listing_html st.limit st.header st.footer items) =
        { status := 200, location := none,
          body := directory_listing_html st.limit st.header st.footer items } from rfl]
  rw [directory_listing_html_eq]

/-- C1 (counterexample): the claim says the href is the raw filename first
percent-encoded and then attribute-escaped, with no raw less-than reaching an
attribute value; but the code only applies encode_double_quoted_attribute,
which passes '<' (and spaces) through unchanged, so the rendered row for the
filename "<" carries a raw '<' inside the href attribute, and "<a b" is not
percent-encoded. -/
theorem c1_cex :
    encode_double_quoted_attribute "<a b" = "<a b" ∧
    dirEntryRow { name := "<", is_dir := false, size := 0, mtime := none } =
      "<tr>\n                   <td><a href=\"<\">&lt;</a></td>\n                   <td>Unknown</td>\n                   <td>0</td>\n               </tr>" ∧
    '<' ∈ (encode_double_quoted_attribute "<").data :=
  ⟨rfl, rfl, by decide⟩

/-- C1 (amended): the href value is the filename escaped only with
html_escape's double-quoted-attribute escaping (so it never contains a raw
double quote, but may contain raw '<' or '>' and is not percent-encoded),
while the displayed name is escaped with encode_safe and never contains a
raw '<', '>' or double quote; the directory slash appended afterwards
changes neither fact. -/
theorem c1_escaping (name : String) (d : Bool) :
    '\"' ∉ (append_slash_for_dir (encode_double_quoted_attribute name) d).data ∧
    '<' ∉ (append_slash_for_dir (encode_safe name) d).data ∧
    '>' ∉ (append_slash_for_dir (encode_safe name) d).data ∧
    '\"' ∉ (append_slash_for_dir (encode_safe name) d).data := by
  have hq : '\"' ∉ (encode_double_quoted_attribute name).data :=
    encodeList_no_quote_attr name.data
  have hlt : '<' ∉ (encode_safe name).data :=
    encodeList_no_markup_safe name.data '<' (Or.inl rfl)
  have hgt : '>' ∉ (encode_safe name).data :=
    encodeList_no_markup_safe name.data '>' (Or.inr (Or.inl rfl))
  have hqs : '\"' ∉ (encode_safe name).data :=
    encodeList_no_markup_safe name.data '\"' (Or.inr (Or.inr rfl))
  cases d with
  | false => exact ⟨hq, hlt, hgt, hqs⟩
  | true =>
    exact ⟨not_mem_append_slash _ _ hq (by decide),
      not_mem_append_slash _ _ hlt (by decide),
      not_mem_append_slash _ _ hgt (by decide),
      not_mem_append_slash _ _ hqs (by decide)⟩

/-- C2: evaluation of the error-to-response mapping: a NotFound error is
turned into a response with status 200 (not 404) and fixed body
"404 Not Found", and an internal error into status 200 (not 500) and fixed
body "Internal Server Error" — axum's IntoResponse for a bare string sets
no status — while, as the claim also states, neither body depends on the
underlying error source, so no internal detail is disclosed. -/
theorem c2_status_eval :
    (∀ src, (YadexError.NotFound src).into_response =
      { status := 200, location := none, body := "404 Not Found" }) ∧
    (∀ osrc msg, (YadexError.Whatever osrc msg).into_response =
      { status := 200, location := none, body := "Internal Server Error" }) :=
  ⟨fun _ => rfl, fun _ _ => rfl⟩

/-- C3: with a positive limit, the rendered listing never holds more than
limit per-item rows, and the truncation warning is emitted exactly when the
number of items consumed from the enumeration equals the limit; the listing
body is the header, those rows in order, then the footer. -/
theorem c3_entry_bound (L : Nat) (hdr ftr : String) (items : List (Option DirEntry))
    (h : 0 < L) :
    (renderedRows L items).length ≤ L ∧
    (maybeTruncated L items = true ↔ (renderedRows L items).length = L) ∧
    directory_listing_html L hdr ftr items =
      hdr ++ joinRows (renderedRows L items) ++ ftr := by
  refine ⟨?_, ?_, directory_listing_html_eq L hdr ftr items⟩
  · rw [renderedRows_length]; omega
  · rw [maybeTruncated_iff L items h, renderedRows_length]; omega

/-- Witness for c3_entry_bound at limit 2 over a three-item stream. -/
theorem c3_witness :
    0 < 2 ∧
    ((renderedRows 2 wItems).length ≤ 2 ∧
      (maybeTruncated 2 wItems = true ↔ (renderedRows 2 wItems).length = 2) ∧
      directory_listing_html 2 "H" "F" wItems =
        "H" ++ joinRows (renderedRows 2 wItems) ++ "F") :=
  ⟨by decide, c3_entry_bound 2 "H" "F" wItems (by decide)⟩

/-- C4 (counterexample): the claim says that for k entries with k ≤ L the
truncation signal is absent, but at k = L = 1 the code emits the warning:
the loop index reaches limit - 1, so the rendered body of a one-entry
directory at limit 1 ends with the truncation-warning row. -/
theorem c4_cex :
    maybeTruncated 1 oneItem = true ∧
    directory_listing_html 1 "" "" oneItem =
      dirEntryRow { name := "a", is_dir := false, size := 0, mtime := some 0 } ++
        truncatedWarningRow :=
  ⟨rfl, rfl⟩

/-- C4 (amended): for a directory stream with k items and limit L > 0: if
k < L the body holds exactly the k per-item rows and no truncation warning;
if k ≥ L it holds exactly the rows of the first L items followed by the
truncation warning, and the signal is set. -/
theorem c4_bound_cases (L : Nat) (hdr ftr : String) (items : List (Option DirEntry))
    (h : 0 < L) :
    (items.length < L →
      directory_listing_html L hdr ftr items =
        hdr ++ joinRows (items.enum.map (fun p => baseRow p.2)) ++ ftr ∧
      (renderedRows L items).length = items.length ∧
      maybeTruncated L items = false) ∧
    (L ≤ items.length →
      directory_listing_html L hdr ftr items =
        hdr ++ (joinRows ((items.take L).enum.map (fun p => baseRow p.2)) ++
          truncatedWarningRow) ++ ftr ∧
      (renderedRows L items).length = L ∧
      maybeTruncated L items = true) := by
  constructor
  · intro hk
    refine ⟨?_, ?_, maybeTruncated_false L items h hk⟩
    · rw [directory_listing_html_eq, renderedRows_small L items hk]
    · rw [renderedRows_length]; omega
  · intro hk
    refine ⟨?_, ?_, (maybeTruncated_iff L items h).mpr hk⟩
    · rw [directory_listing_html_eq, renderedRows_full L items h hk]
    · rw [renderedRows_length]; omega

/-- Witness for c4_bound_cases at limit 1 over a one-entry stream. -/
theorem c4_witness :
    0 < 1 ∧
    ((oneItem.length < 1 →
      directory_listing_html 1 "H" "F" oneItem =
        "H" ++ joinRows (oneItem.enum.map (fun p => baseRow p.2)) ++ "F" ∧
      (renderedRows 1 oneItem).length = oneItem.length ∧
      maybeTruncated 1 oneItem = false) ∧
    (1 ≤ oneItem.length →
      directory_listing_html 1 "H" "F" oneItem =
        "H" ++ (joinRows ((oneItem.take 1).enum.map (fun p => baseRow p.2)) ++
          truncatedWarningRow) ++ "F" ∧
      (renderedRows 1 oneItem).length = 1 ∧
      maybeTruncated 1 oneItem = true)) :=
  ⟨by decide, c4_bound_cases 1 "H" "F" oneItem (by decide)⟩

/-- C5 (counterexample): the claim says an entry whose metadata read fails
is silently skipped with no output row, but the code renders a visible
fixed error row for it: a one-item stream whose only entry fails produces
exactly that non-empty row. -/
theorem c5_cex :
    directory_listing_html 10 "" "" [failItem] = entryErrorRow ∧
    entryErrorRow ≠ "" :=
  ⟨rfl, by decide⟩

/-- C5 (amended): an entry whose metadata retrieval fails is not rendered
as a normal entry; in its position the fixed error row is emitted (plus the
truncation warning if its index is limit - 1), and the enumeration
continues, all items after it still being consumed and rendered. -/
theorem c5_error_row (L : Nat) (pre post : List (Option DirEntry))
    (bad : Option DirEntry)
    (hbad : direntry_info bad = none) (hpre : pre.length < L) :
    renderedRows L (pre ++ bad :: post) =
      pre.enum.map (renderIndexed L) ++
        (entryErrorRow ++ (if pre.length = L - 1 then truncatedWarningRow else "")) ::
          ((List.enumFrom (pre.length + 1) post).take (L - pre.length - 1)).map
            (renderIndexed L) := by
  unfold renderedRows
  rw [enum_eq, List.enumFrom_append]
  rw [List.take_append_eq_append_take]
  rw [List.take_of_length_le (by rw [List.enumFrom_length]; omega)]
  simp only [List.enumFrom_length, Nat.zero_add]
  rw [show List.enumFrom pre.length (bad :: post) =
        (pre.length, bad) :: List.enumFrom (pre.length + 1) post from rfl]
  rw [show L - pre.length = (L - pre.length - 1) + 1 from by omega]
  rw [List.take_succ_cons]
  rw [List.map_append, List.map_cons]
  rw [renderIndexed_err L pre.length bad hbad]
  rfl

/-- Witness for c5_error_row: one good entry, then a failing one. -/
theorem c5_witness :
    direntry_info failItem = none ∧ oneItem.length < 10 ∧
    renderedRows 10 (oneItem ++ failItem :: []) =
      oneItem.enum.map (renderIndexed 10) ++
        (entryErrorRow ++ (if oneItem.length = 10 - 1 then truncatedWarningRow else "")) ::
          ((List.enumFrom (oneItem.length + 1) []).take (10 - oneItem.length - 1)).map
            (renderIndexed 10) :=
  ⟨by decide, by decide, c5_error_row 10 oneItem [] failItem (by decide) (by decide)⟩

/-- C6: a per-entry metadata failure never aborts the request: for any
stream containing a failing entry, the handler still returns Ok with an
HTTP 200 response whose body renders every consumed item — the entries
before and after the failure included — and the failure is never turned
into a request-level error. -/
theorem c6_no_abort (st : AppState) (path : String)
    (fs : String → Except String (List (Option DirEntry)))
    (pre post : List (Option DirEntry)) (bad : Option DirEntry)
    (hbad : direntry_info bad = none)
    (h1 : endsWithSlash path = true) (h2 : fs path = .ok (pre ++ bad :: post)) :
    directory_listing st path fs =
      .ok { status := 200, location := none,
            body := st.header ++
              joinRows (renderedRows st.limit (pre ++ bad :: post)) ++ st.footer } :=
  directory_listing_ok st path fs (pre ++ bad :: post) h1 h2

/-- Witness for c6_no_abort: a request for /d/ over a stream with a good
entry followed by a failing one. -/
theorem c6_witness :
    direntry_info failItem = none ∧ endsWithSlash "/d/" = true ∧
    directory_listing ⟨2, "H", "F"⟩ "/d/" (fun _ => .ok (oneItem ++ failItem :: [])) =
      .ok { status := 200, location := none,
            body := "H" ++ joinRows (renderedRows 2 (oneItem ++ failItem :: [])) ++ "F" } :=
  ⟨by decide, by decide,
    c6_no_abort ⟨2, "H", "F"⟩ "/d/" (fun _ => .ok (oneItem ++ failItem :: []))
      oneItem [] failItem (by decide) (by decide) rfl⟩

/-- C7 (counterexample): the claim says a path without a trailing slash gets
a 301 Moved Permanently; the code uses axum's Redirect::permanent, which is
308 Permanent Redirect: the request for /foo is answered with status 308,
not 301. -/
theorem c7_cex :
    directory_listing ⟨10, "H", "F"⟩ "/foo" (fun _ => .error "io") =
      .ok { status := 308, location := some "/foo/", body := "" } ∧
    (308 : Nat) ≠ 301 :=
  ⟨rfl, by decide⟩

/-- C7 (amended): for every request whose path does not end with '/', the
handler responds with a 308 Permanent Redirect to the same path with '/'
appended; the result is the same for every filesystem, i.e. no filesystem
access takes place. -/
theorem c7_redirect (st : AppState) (path : String)
    (fs : String → Except String (List (Option DirEntry)))
    (h : endsWithSlash path = false) :
    directory_listing st path fs =
      .ok { status := 308, location := some (path ++ "/"), body := "" } := by
  unfold directory_listing
  rw [h]
  rfl

/-- Witness for c7_redirect at the path /foo. -/
theorem c7_witness :
    endsWithSlash "/foo" = false ∧
    directory_listing ⟨1, "", ""⟩ "/foo" (fun _ => .error "e") =
      .ok { status := 308, location := some ("/foo" ++ "/"), body := "" } :=
  ⟨by decide, c7_redirect ⟨1, "", ""⟩ "/foo" (fun _ => .error "e") (by decide)⟩

/-- C8: a configured limit of 0 is passed through as usize::MAX, and with
that bound a stream of any machine-representable length k is rendered in
full: all k per-item rows appear and the truncation warning is never
emitted. -/
theorem c8_unbounded (hdr ftr : String) (items : List (Option DirEntry))
    (h : items.length < usizeMax) :
    App.serveLimit 0 = usizeMax ∧
    directory_listing_html usizeMax hdr ftr items =
      hdr ++ joinRows (items.enum.map (fun p => baseRow p.2)) ++ ftr ∧
    (renderedRows usizeMax items).length = items.length ∧
    maybeTruncated usizeMax items = false := by
  have h0 : 0 < usizeMax := by decide
  refine ⟨rfl, ?_, ?_, maybeTruncated_false usizeMax items h0 h⟩
  · rw [directory_listing_html_eq, renderedRows_small usizeMax items h]
  · rw [renderedRows_length]; omega

/-- Witness for c8_unbounded over a three-item stream. -/
theorem c8_witness :
    wItems.length < usizeMax ∧
    (App.serveLimit 0 = usizeMax ∧
      directory_listing_html usizeMax "H" "F" wItems =
        "H" ++ joinRows (wItems.enum.map (fun p => baseRow p.2)) ++ "F" ∧
      (renderedRows usizeMax wItems).length = wItems.length ∧
      maybeTruncated usizeMax wItems = false) :=
  ⟨by decide, c8_unbounded "H" "F" wItems (by decide)⟩

/-- C9: append_slash_for_dir appends '/' exactly for directories, and for a
filename containing no slash (as filesystem names never do), both the
displayed name and the href value end with '/' if and only if the entry is
a directory. -/
theorem c9_trailing_slash (name : String) (d : Bool)
    (h : ∀ c ∈ name.data, c ≠ '/') :
    append_slash_for_dir name true = name ++ "/" ∧
    append_slash_for_dir name false = name ∧
    (((append_slash_for_dir (encode_safe name) d).data.getLast? = some '/') ↔
      d = true) ∧
    (((append_slash_for_dir (encode_double_quoted_attribute name) d).data.getLast? =
        some '/') ↔ d = true) := by
  refine ⟨rfl, rfl, ?_, ?_⟩
  · cases d with
    | false =>
      simp only [Bool.false_eq_true, iff_false]
      rw [show append_slash_for_dir (encode_safe name) false = encode_safe name from rfl]
      rw [encode_safe_data]
      exact encodeList_getLast_safe name.data
    | true =>
      simp only [iff_true]
      rw [show append_slash_for_dir (encode_safe name) true =
            encode_safe name ++ "/" from rfl]
      exact getLast_append_slash _
  · cases d with
    | false =>
      simp only [Bool.false_eq_true, iff_false]
      rw [show append_slash_for_dir (encode_double_quoted_attribute name) false =
            encode_double_quoted_attribute name from rfl]
      rw [encode_attr_data]
      exact encodeList_getLast_attr name.data h
    | true =>
      simp only [iff_true]
      rw [show append_slash_for_dir (encode_double_quoted_attribute name) true =
            encode_double_quoted_attribute name ++ "/" from rfl]
      exact getLast_append_slash _

/-- Witness for c9_trailing_slash at the name "a&b" as a directory. -/
theorem c9_witness :
    (∀ c ∈ "a&b".data, c ≠ '/') ∧
    (append_slash_for_dir "a&b" true = "a&b" ++ "/" ∧
      append_slash_for_dir "a&b" false = "a&b" ∧
      (((append_slash_for_dir (encode_safe "a&b") true).data.getLast? = some '/') ↔
        true = true) ∧
      (((append_slash_for_dir (encode_double_quoted_attribute "a&b")
          true).data.getLast? = some '/') ↔ true = true)) :=
  ⟨by decide, c9_trailing_slash "a&b" true (by decide)⟩

/-- C10: every successful listing response has status 200 and a body that
is exactly the header, then the per-item rows in enumeration order (with
the truncation warning attached to the row at index limit - 1 when it is
reached), then the footer; so the header is a prefix and the footer a
suffix of the body. -/
theorem c10_sandwich (st : AppState) (path : String)
    (fs : String → Except String (List (Option DirEntry)))
    (items : List (Option DirEntry))
    (h1 : endsWithSlash path = true) (h2 : fs path = .ok items) :
    ∃ mid, directory_listing st path fs =
        .ok { status := 200, location := none,
              body := st.header ++ mid ++ st.footer } ∧
      mid = joinRows (renderedRows st.limit items) :=
  ⟨joinRows (renderedRows st.limit items),
    directory_listing_ok st path fs items h1 h2, rfl⟩

/-- Witness for c10_sandwich: a request for /d/ over the three-item stream. -/
theorem c10_witness :
    endsWithSlash "/d/" = true ∧
    ∃ mid, directory_listing ⟨2, "H", "F"⟩ "/d/" (fun _ => .ok wItems) =
        .ok { status := 200, location := none, body := "H" ++ mid ++ "F" } ∧
      mid = joinRows (renderedRows 2 wItems) :=
  ⟨by decide, c10_sandwich ⟨2, "H", "F"⟩ "/d/" (fun _ => .ok wItems) wItems
    (by decide) rfl⟩
